import Mathlib

/-!
Verification of the kibutsu repository (a single-host Docker management
service) against its natural-language specification.

The development shallowly embeds the two source files:

* `src/main.go` — the HTTP middleware chain (`corsMiddleware`,
  `requestIDMiddleware`, `recoveryMiddleware`, `loggingMiddleware`,
  `timeoutMiddleware`), the `/health` and `/docker/info` handlers, process
  startup, and the `/compose/projects/` dispatch function.
* `src/frontend/src/lib/stores/docker.ts` — the `errorStore` and
  `createLoadingStore` state logic.

Go `context.Context` values are modelled by the inductive `Ctx`; handlers are
pure functions from a request and the response headers already set on the
writer to an outcome (a written response, or a panic) together with the list
of log lines emitted.  Wall-clock durations are modelled in seconds, and log
output keeps only the data the source formats into it (stack traces and
elapsed durations are runtime introspection and are not modelled).

The project-lifecycle orchestrator (package `kibutsu/api/handlers`) is not
part of the given sources; the operations of it that the specification
describes (`Down`, `Scale`) are modelled from the specification text, as
marked on their doc comments.
-/

namespace Kibutsu

/-! ## Model of Go `context.Context` -/

/-- Model of a Go `context.Context`: a base context (the HTTP connection's
context, which the runtime cancels at `cancelTime`, if ever), extended by
`context.WithValue` and `context.WithTimeout` nodes. -/
inductive Ctx where
  | base (cancelTime : Option Nat)
  | withValue (parent : Ctx) (key val : String)
  | withTimeout (parent : Ctx) (deadline : Nat)
deriving Repr, DecidableEq

/-- Whether a context is cancelled at time `t`: a `WithTimeout` context is
cancelled as soon as its parent is cancelled or its own deadline has passed,
so the effective deadline is the minimum over the chain. -/
def Ctx.cancelled : Ctx → Nat → Bool
  | .base none, _ => false
  | .base (some c), t => decide (c ≤ t)
  | .withValue p _ _, t => p.cancelled t
  | .withTimeout p d, t => p.cancelled t || decide (d ≤ t)

/-- Model of `ctx.Value(key)`: innermost `WithValue` binding wins. -/
def Ctx.value : Ctx → String → Option String
  | .base _, _ => none
  | .withValue p k v, key => if k == key then some v else p.value key
  | .withTimeout p _, key => p.value key

/-! ## Model of HTTP requests, responses and handlers -/

/-- An inbound HTTP request: method, URL path, request headers and the
context attached to it (`r.Context()`). -/
structure Request where
  method : String
  urlPath : String
  reqHeaders : List (String × String)
  ctx : Ctx
deriving Repr, DecidableEq

/-- Model of `r.Header.Get(k)`: first value of the header, `""` if absent. -/
def Request.getHeader (r : Request) (k : String) : String :=
  (((r.reqHeaders.filter (fun p => p.1 == k)).headD (k, "")).2)

/-- Model of `r.WithContext(ctx)`: the same request with a new context. -/
def Request.withContext (r : Request) (c : Ctx) : Request :=
  { r with ctx := c }

/-- A written HTTP response: status code, body and response headers.
The body string keeps the status-text content written by the source
(`http.Error` additionally appends a newline, which is not modelled). -/
structure Response where
  status : Nat
  body : String
  headers : List (String × String)
deriving Repr, DecidableEq

/-- Outcome of running a handler: either it wrote a response, or it
panicked with the shown panic value. -/
inductive HOutcome where
  | ok (resp : Response)
  | panicked (msg : String)
deriving Repr, DecidableEq

/-- Whether the outcome is a propagating panic. -/
def HOutcome.isPanic : HOutcome → Bool
  | .ok _ => false
  | .panicked _ => true

/-- A handler takes the request and the response headers already set on the
`http.ResponseWriter` by enclosing middleware, and produces an outcome plus
the log lines it emitted (in order). -/
def Handler : Type :=
  Request → List (String × String) → HOutcome × List String

/-! ## The middleware chain of `src/main.go` -/

/-- The request id chosen by `requestIDMiddleware` (lines 59–62): the
incoming `X-Request-ID` header if non-empty, otherwise a fresh UUID
(modelled as the parameter `uuid`). -/
def requestIDOf (r : Request) (uuid : String) : String :=
  if r.getHeader "X-Request-ID" == "" then uuid else r.getHeader "X-Request-ID"

/-- Middleware `requestIDMiddleware` (main.go lines 57–67): stores the request id in the
request context under the `requestID` key, sets the `X-Request-ID` response
header, and calls the next handler. -/
def requestIDMiddleware (uuid : String) (next : Handler) : Handler :=
  fun r hdrs =>
    let requestID := requestIDOf r uuid
    next (r.withContext (.withValue r.ctx "requestID" requestID))
      (("X-Request-ID", requestID) :: hdrs)

/-- The request log line of `loggingMiddleware` (main.go lines 76–83), minus
the elapsed duration (wall-clock introspection, not modelled). -/
def requestLogLine (rid : Option String) (method path : String) (status : Nat) : String :=
  "[" ++ rid.getD "<nil>" ++ "] " ++ method ++ " " ++ path ++ " " ++ toString status

/-- Middleware `loggingMiddleware` (main.go lines 69–85): runs the next handler and then
logs the request; if the next handler panics the `log.Printf` after
`next.ServeHTTP` never runs and the panic propagates. -/
def loggingMiddleware (next : Handler) : Handler :=
  fun r hdrs =>
    match next r hdrs with
    | (.ok resp, logs) =>
        (.ok resp, logs ++ [requestLogLine (r.ctx.value "requestID") r.method r.urlPath resp.status])
    | (.panicked m, logs) => (.panicked m, logs)

/-- Middleware `recoveryMiddleware` (main.go lines 87–97): recovers from a panic in the
next handler, logs the panic value (the stack trace from `debug.Stack()` is
runtime introspection and not modelled) and writes
`500 Internal Server Error` via `http.Error`. -/
def recoveryMiddleware (next : Handler) : Handler :=
  fun r hdrs =>
    match next r hdrs with
    | (.ok resp, logs) => (.ok resp, logs)
    | (.panicked m, logs) =>
        (.ok { status := 500, body := "Internal Server Error", headers := hdrs },
         logs ++ ["[PANIC] " ++ m])

/-- Middleware `timeoutMiddleware` (main.go lines 99–107): replaces the request context
with `context.WithTimeout(r.Context(), timeout)`; `now` is the time the
request is served, so the injected deadline is `now + timeout` (seconds). -/
def timeoutMiddleware (timeout : Nat) (now : Nat) (next : Handler) : Handler :=
  fun r hdrs =>
    next (r.withContext (.withTimeout r.ctx (now + timeout))) hdrs

/-- The three response headers set by `corsMiddleware` (main.go lines
111–113). -/
def corsHeaders : List (String × String) :=
  [("Access-Control-Allow-Origin", "http://localhost:5173"),
   ("Access-Control-Allow-Methods", "GET, POST, PUT, DELETE, OPTIONS"),
   ("Access-Control-Allow-Headers", "Content-Type, X-Request-ID")]

/-- Middleware `corsMiddleware` (main.go lines 109–122): sets the CORS headers and
short-circuits `OPTIONS` requests with a bare `200 OK`. -/
def corsMiddleware (next : Handler) : Handler :=
  fun r hdrs =>
    let hdrs2 := corsHeaders ++ hdrs
    if r.method == "OPTIONS" then (.ok { status := 200, body := "", headers := hdrs2 }, [])
    else next r hdrs2

/-- The full middleware chain applied to the routing mux in `main`
(main.go lines 295–303):
`corsMiddleware(requestIDMiddleware(recoveryMiddleware(loggingMiddleware(timeoutMiddleware(30s)(mux)))))`. -/
def middlewareChain (mux : Handler) (uuid : String) (now : Nat) : Handler :=
  corsMiddleware (requestIDMiddleware uuid
    (recoveryMiddleware (loggingMiddleware (timeoutMiddleware 30 now mux))))

/-- The request the routing mux receives for a non-`OPTIONS` inbound request
`r`: the context is wrapped by the request-id `WithValue` node and the
30-second `WithTimeout` node. -/
def deliveredToMux (r : Request) (uuid : String) (now : Nat) : Request :=
  r.withContext (.withTimeout (.withValue r.ctx "requestID" (requestIDOf r uuid)) (now + 30))

/-! ## Health, docker-info and startup (`src/main.go`) -/

/-- The daemon-facing state of the process's Docker client: the result its
`Info` call currently returns (`Except.error` while the engine is
unreachable). -/
structure App where
  engineInfo : Except String String
deriving Repr

/-- The JSON payload written by `App.healthHandler` (main.go lines
124–131). -/
structure HealthResponse where
  status : String
  timestamp : String
deriving Repr, DecidableEq

/-- Handler `App.healthHandler` (main.go lines 124–131): always encodes
`{status: "healthy"}` with the implicit `200` status; it performs no engine
call (the `App` receiver's client is unused). -/
def healthHandler (_app : App) (now : String) : Nat × HealthResponse :=
  (200, { status := "healthy", timestamp := now })

/-- Handler `App.dockerInfoHandler` (main.go lines 133–145): surfaces an engine
`Info` failure as a `500` with the error text, otherwise writes the info as
the body with `200`.  (The 5-second sub-context it derives is not modelled;
it only shortens the deadline of the blocking call.) -/
def dockerInfoHandler (app : App) : Nat × String :=
  match app.engineInfo with
  | .error e => (500, "Failed to get Docker info: " ++ e)
  | .ok info => (200, info)

/-- Startup sequence of `main` (main.go lines 150–162): the process begins
serving only when client construction and the initial `Ping` both succeed;
on either failure `log.Fatalf` exits the process before the server starts. -/
def mainStartsServing (clientNew : Except String Unit) (ping : Except String Unit) : Bool :=
  match clientNew with
  | .error _ => false
  | .ok _ =>
    match ping with
    | .error _ => false
    | .ok _ => true

/-! ## String helpers modelling the Go standard library

`String.splitOn` is defined by well-founded recursion and does not reduce in
the kernel, so Go's `strings.Split` and `strings.TrimPrefix` are modelled by
structurally recursive functions over the character list of the string. -/

/-- Split a character list at every occurrence of `c`; like Go's
`strings.Split`, the result always has at least one (possibly empty)
group, and splitting the empty string gives one empty group. -/
def splitChars (c : Char) : List Char → List (List Char)
  | [] => [[]]
  | ch :: rest =>
    match splitChars c rest with
    | [] => [[]]
    | g :: gs => if ch == c then [] :: g :: gs else (ch :: g) :: gs

/-- Model of Go `strings.Split(s, sep)` for a one-character separator. -/
def goSplit (c : Char) (s : String) : List String :=
  (splitChars c s.data).map fun cs => String.mk cs

/-- Model of Go `strings.TrimPrefix(s, pre)`: drop the leading `pre` when
present, otherwise return `s` unchanged. -/
def goTrimLeading (pre s : String) : String :=
  if pre.data.isPrefixOf s.data then String.mk (s.data.drop pre.data.length) else s

/-! ## The `/compose/projects/` dispatch function (`src/main.go` 228–280)

The compose route handler runs inside `http.StripPrefix("/api", apiRouter)`,
so its `r.URL.Path` is the request path with the `/api` prefix removed; the
functions below take that stripped path. -/

/-- The compose handler methods the route can dispatch to. -/
inductive ComposeRoute where
  | listProjects
  | getProject
  | projectUp
  | projectDown
  | getProjectLogs
  | listServices
  | scaleService
deriving Repr, DecidableEq

/-- Outcome of the route dispatch: a handler is invoked, `http.NotFound` is
written, or evaluating `parts[1]` panics. -/
inductive RouteOutcome where
  | routed (c : ComposeRoute)
  | notFound
  | panicked (msg : String)
deriving Repr, DecidableEq

/-- The panic value of an out-of-range slice index in Go. -/
def indexOutOfRange : String := "runtime error: index out of range"

/-- The `/compose/projects/` route handler of `main` (main.go lines
228–280), translated clause by clause: trim the prefix, split on `/`; an
empty project segment with `GET` lists projects; a single segment with `GET`
returns project details; otherwise `action := parts[1]` is read — which
panics when the split produced only one segment — and dispatched by the
`switch`, falling through to `http.NotFound`. -/
def composeRoute (method urlPath : String) : RouteOutcome :=
  let path := goTrimLeading "/compose/projects/" urlPath
  let parts := goSplit '/' path
  if (path == "" || parts.headD "" == "") && method == "GET" then
    .routed .listProjects
  else if parts.length == 1 && method == "GET" then
    .routed .getProject
  else
    match parts[1]? with
    | none => .panicked indexOutOfRange
    | some action =>
      if action == "up" then
        (if method == "POST" then .routed .projectUp else .notFound)
      else if action == "down" then
        (if method == "POST" then .routed .projectDown else .notFound)
      else if action == "logs" then
        (if method == "GET" then .routed .getProjectLogs else .notFound)
      else if action == "services" then
        (if parts.length == 2 && method == "GET" then .routed .listServices
         else if parts.length == 4 && parts.getD 3 "" == "scale" && method == "POST" then
           .routed .scaleService
         else .notFound)
      else .notFound

/-- The compose route handler as an HTTP handler: `interp` stands for the
(out-of-source) `ComposeHandler` methods; `http.NotFound` writes a `404`. -/
def composeHttpHandler (interp : ComposeRoute → Handler) : Handler :=
  fun r hdrs =>
    match composeRoute r.method r.urlPath with
    | .routed c => interp c r hdrs
    | .notFound => (.ok { status := 404, body := "404 page not found", headers := hdrs }, [])
    | .panicked m => (.panicked m, [])

/-- The dispatch table as the amended claim states it (this definition
follows the claim's words, to be compared with `composeRoute`, which is
translated from the source): when the path after the prefix splits into a
single segment, `GET` lists projects (empty segment) or returns project
details (named segment) and any other method panics reading `parts[1]`;
with more segments, `GET` with an empty project segment lists projects, and
otherwise the second segment selects the action — `POST` on `up` / `down`,
`GET` on `logs`, `GET` on `services` with exactly two segments, `POST` on
`services` with exactly four segments whose fourth is `scale` — with every
remaining combination yielding `http.NotFound`. -/
def composeRouteClaim (method urlPath : String) : RouteOutcome :=
  let path := goTrimLeading "/compose/projects/" urlPath
  let parts := goSplit '/' path
  if parts.length == 1 then
    if method == "GET" then
      (if parts.headD "" == "" then .routed .listProjects else .routed .getProject)
    else .panicked indexOutOfRange
  else
    if parts.headD "" == "" && method == "GET" then .routed .listProjects
    else
      match parts[1]? with
      | none => .panicked indexOutOfRange
      | some action =>
        if action == "up" then
          (if method == "POST" then .routed .projectUp else .notFound)
        else if action == "down" then
          (if method == "POST" then .routed .projectDown else .notFound)
        else if action == "logs" then
          (if method == "GET" then .routed .getProjectLogs else .notFound)
        else if action == "services" then
          (if parts.length == 2 && method == "GET" then .routed .listServices
           else if parts.length == 4 && parts.getD 3 "" == "scale" && method == "POST" then
             .routed .scaleService
           else .notFound)
        else .notFound

/-! ## The frontend stores (`src/frontend/src/lib/stores/docker.ts`) -/

/-- The `DockerError` records the frontend error store holds; timestamps are
modelled as naturals. -/
structure DockerError where
  message : String
  code : String
  timestamp : Nat
deriving Repr, DecidableEq

/-- Operation `errorStore.add` (docker.ts line 64): prepend the new error and keep the
first 10 entries. -/
def errorStoreAdd (e : DockerError) (errors : List DockerError) : List DockerError :=
  (e :: errors).take 10

/-- Operation `errorStore.clear` (docker.ts line 65): empty the list. -/
def errorStoreClear (_errors : List DockerError) : List DockerError := []

/-- One public operation of the error store. -/
inductive ErrorOp where
  | add (e : DockerError)
  | clear
deriving Repr, DecidableEq

/-- Apply one error-store operation to the current list. -/
def errorStoreStep (errors : List DockerError) : ErrorOp → List DockerError
  | .add e => errorStoreAdd e errors
  | .clear => errorStoreClear errors

/-- Run a sequence of error-store operations from the initial empty list. -/
def errorStoreRun (ops : List ErrorOp) : List DockerError :=
  ops.foldl errorStoreStep []

/-- The state of one store produced by `createLoadingStore` (docker.ts lines
8–20). -/
structure StoreState (T : Type) where
  data : T
  loading : Bool
  lastUpdated : Option Nat

/-- Operation `refresh` of `createLoadingStore` (docker.ts lines 30–47), evaluated
after the awaited fetch settles with `fetchResult` at time `now`: it first
sets `loading := true`; a resolved fetch replaces the whole state with the
fetched data, `loading := false` and a fresh `lastUpdated`; a rejected fetch
adds one `FETCH_ERROR` entry to the error store and only resets `loading`
(the rejection value's message is modelled as the `String` of the
`Except.error`). -/
def storeRefresh {T : Type} (st : StoreState T) (errors : List DockerError)
    (fetchResult : Except String T) (now : Nat) : StoreState T × List DockerError :=
  let st1 : StoreState T := { st with loading := true }
  match fetchResult with
  | .ok d => ({ data := d, loading := false, lastUpdated := some now }, errors)
  | .error msg =>
      ({ st1 with loading := false },
       errorStoreAdd { message := msg, code := "FETCH_ERROR", timestamp := now } errors)

/-! ## Spec-modelled orchestrator operations

The project-lifecycle orchestrator lives in package `kibutsu/api/handlers`,
which is not among the given sources; the operations below are modelled from
the specification (§4.2), with engine calls modelled as succeeding state
transformations. -/

/-- Kind of an engine-native resource. -/
inductive ResKind where
  | container
  | network
  | volume
deriving Repr, DecidableEq

/-- Modelled from the spec: an engine-native resource carrying the label
schema `{project, service, index}` (§6, persisted state layout); `id` is the
engine-assigned identity. -/
structure Resource where
  kind : ResKind
  id : Nat
  project : Option String
  service : Option String
  index : Option Nat
deriving Repr, DecidableEq

/-- Whether a resource carries the project label `p`. -/
def matchesProject (p : String) (r : Resource) : Bool :=
  r.project == some p

/-- Modelled from the spec: the aggregated result of a mutating operation
(§4.2, §7) — the affected resources and the accumulated per-resource
errors; success is an empty error list. -/
structure OperationResult where
  affected : List Resource
  errors : List String
deriving Repr, DecidableEq

/-- Modelled from the spec (§4.2 `Down`, implementation not under `src/`):
stop and remove every instance labeled to the project, then the project
network(s), then the volume(s) unless `keepVolumes`; a project with zero
matching resources yields success with an empty affected-resource list.
Engine calls are modelled as succeeding, so no errors accumulate. -/
def Down (st : List Resource) (p : String) (keepVolumes : Bool) :
    List Resource × OperationResult :=
  let instances := st.filter fun r => matchesProject p r && r.kind == ResKind.container
  let networks := st.filter fun r => matchesProject p r && r.kind == ResKind.network
  let volumes :=
    if keepVolumes then []
    else st.filter fun r => matchesProject p r && r.kind == ResKind.volume
  let removed := instances ++ networks ++ volumes
  (st.filter fun r => !(decide (r ∈ removed)), { affected := removed, errors := [] })

/-- Modelled from the spec (§4.2 `Scale`, gap-filling rule of `Up` step 3):
the lowest non-negative integer not currently used as an instance index; the
search range of length `used.length + 1` always contains a free index. -/
def lowestFreeIdx (used : List Nat) : Nat :=
  ((List.range (used.length + 1)).filter fun n => !(decide (n ∈ used))).headD 0

/-- Modelled from the spec: assign `k` new instance indices by repeatedly
taking the lowest free index (gap-filling, not monotonic append). -/
def gapFill (used : List Nat) : Nat → List Nat
  | 0 => []
  | k + 1 =>
    let i := lowestFreeIdx used
    i :: gapFill (i :: used) k

/-- Modelled from the spec (§4.2 `Scale`, implementation not under `src/`):
given the indices of the service's live instances and the desired replica
count, returns `(surviving indices, removed indices)`.  Scaling up creates
gap-filled indices; scaling down removes the highest indices first, keeping
the lowest-indexed instances; an equal count is a no-op. -/
def Scale (idxs : List Nat) (desired : Nat) : List Nat × List Nat :=
  if idxs.length < desired then
    (idxs ++ gapFill idxs (desired - idxs.length), [])
  else if desired < idxs.length then
    let sorted := List.insertionSort (· ≤ ·) idxs
    (sorted.take desired, sorted.drop desired)
  else (idxs, [])

/-! ## Concrete fixtures used in witnesses and counterexamples -/

/-- A mux/handler specified only as well-behaved: its `.ok` responses carry
(at least) the headers already set on the writer.  This is how every
`net/http` handler behaves, since handlers can only add to the shared
header map. -/
def hdrsExtended (h : List (String × String)) : HOutcome → Prop
  | .ok resp => ∃ extra, resp.headers = extra ++ h
  | .panicked _ => True

/-- A trivial well-behaved handler writing an empty `200`. -/
def stubHandler : Handler :=
  fun _ hdrs => (.ok { status := 200, body := "", headers := hdrs }, [])

/-- A handler that always panics, standing for any panicking downstream
chain. -/
def panicHandler : Handler :=
  fun _ _ => (.panicked "boom", [])

/-- A concrete plain request. -/
def reqGet : Request :=
  { method := "GET", urlPath := "/health", reqHeaders := [], ctx := .base none }

/-- A concrete `POST` to a project-only compose path. -/
def reqPost : Request :=
  { method := "POST", urlPath := "/compose/projects/myproj", reqHeaders := [], ctx := .base none }

/-- A concrete CORS preflight request. -/
def reqOptions : Request :=
  { method := "OPTIONS", urlPath := "/api/containers", reqHeaders := [], ctx := .base none }

/-- A resource labeled to a different project, for witnessing `Down` on a
project with zero matching resources. -/
def resAlien : Resource :=
  { kind := .container, id := 7, project := some "other", service := some "web", index := some 0 }

/-- An engine state containing no resource of project `demo`. -/
def stAlien : List Resource := [resAlien]

/-! ## Helper lemmas about the middleware chain -/

@[simp]
theorem withContext_ctx (r : Request) (c : Ctx) : (r.withContext c).ctx = c := rfl

@[simp]
theorem withContext_method (r : Request) (c : Ctx) : (r.withContext c).method = r.method := rfl

@[simp]
theorem withContext_urlPath (r : Request) (c : Ctx) : (r.withContext c).urlPath = r.urlPath := rfl

@[simp]
theorem withContext_reqHeaders (r : Request) (c : Ctx) :
    (r.withContext c).reqHeaders = r.reqHeaders := rfl

@[simp]
theorem withContext_withContext (r : Request) (c c' : Ctx) :
    (r.withContext c).withContext c' = r.withContext c' := rfl

/-- An `OPTIONS` request never reaches the mux: the CORS middleware
short-circuits it with a bare `200` carrying only the CORS headers. -/
theorem chain_options (mux : Handler) (uuid : String) (now : Nat) (r : Request)
    (hdrs : List (String × String)) (hm : (r.method == "OPTIONS") = true) :
    middlewareChain mux uuid now r hdrs =
      (.ok { status := 200, body := "", headers := corsHeaders ++ hdrs }, []) := by
  simp [middlewareChain, corsMiddleware, hm]

/-- Chain behavior when the mux answers normally: the mux is invoked at
`deliveredToMux` with the request-id and CORS headers set, and its response
passes back unchanged (plus the request log line). -/
theorem chain_ok (mux : Handler) (uuid : String) (now : Nat) (r : Request)
    (hdrs : List (String × String)) (resp : Response) (logs : List String)
    (hm : (r.method == "OPTIONS") = false)
    (hmx : mux (deliveredToMux r uuid now)
        (("X-Request-ID", requestIDOf r uuid) :: (corsHeaders ++ hdrs)) = (.ok resp, logs)) :
    middlewareChain mux uuid now r hdrs =
      (.ok resp,
       logs ++ [requestLogLine (some (requestIDOf r uuid)) r.method r.urlPath resp.status]) := by
  simp only [deliveredToMux] at hmx
  simp [middlewareChain, corsMiddleware, requestIDMiddleware, recoveryMiddleware,
    loggingMiddleware, timeoutMiddleware, hm, hmx, Ctx.value]

/-- Chain behavior when the mux panics: the recovery middleware turns the
panic into a `500 Internal Server Error` carrying the headers set so far,
and logs the panic value; the logging middleware's line is skipped. -/
theorem chain_panic (mux : Handler) (uuid : String) (now : Nat) (r : Request)
    (hdrs : List (String × String)) (m : String) (logs : List String)
    (hm : (r.method == "OPTIONS") = false)
    (hmx : mux (deliveredToMux r uuid now)
        (("X-Request-ID", requestIDOf r uuid) :: (corsHeaders ++ hdrs)) = (.panicked m, logs)) :
    middlewareChain mux uuid now r hdrs =
      (.ok { status := 500, body := "Internal Server Error",
             headers := ("X-Request-ID", requestIDOf r uuid) :: (corsHeaders ++ hdrs) },
       logs ++ ["[PANIC] " ++ m]) := by
  simp only [deliveredToMux] at hmx
  simp [middlewareChain, corsMiddleware, requestIDMiddleware, recoveryMiddleware,
    loggingMiddleware, timeoutMiddleware, hm, hmx, Ctx.value]

/-! ## Claim theorems -/

/-- C2: if any downstream handler panics, the recovery middleware catches
the panic, logs the panic value, and responds `500` with body
`Internal Server Error`; the chain as a whole never lets a panic
propagate. -/
theorem c2_recovery_middleware (next : Handler) (r : Request)
    (hdrs : List (String × String)) :
    (∀ m logs, next r hdrs = (.panicked m, logs) →
      recoveryMiddleware next r hdrs =
        (.ok { status := 500, body := "Internal Server Error", headers := hdrs },
         logs ++ ["[PANIC] " ++ m]))
    ∧ (recoveryMiddleware next r hdrs).1.isPanic = false
    ∧ ∀ (mux : Handler) (uuid : String) (now : Nat),
        (middlewareChain mux uuid now r hdrs).1.isPanic = false := by
  refine ⟨?_, ?_, ?_⟩
  · intro m logs h
    simp [recoveryMiddleware, h]
  · unfold recoveryMiddleware
    rcases h : next r hdrs with ⟨o, logs⟩
    cases o <;> simp [HOutcome.isPanic]
  · intro mux uuid now
    cases hm : (r.method == "OPTIONS") with
    | true => simp [chain_options mux uuid now r hdrs hm, HOutcome.isPanic]
    | false =>
      rcases hmx : mux (deliveredToMux r uuid now)
          (("X-Request-ID", requestIDOf r uuid) :: (corsHeaders ++ hdrs)) with ⟨o, logs⟩
      cases o with
      | ok resp => simp [chain_ok mux uuid now r hdrs resp logs hm hmx, HOutcome.isPanic]
      | panicked m => simp [chain_panic mux uuid now r hdrs m logs hm hmx, HOutcome.isPanic]

/-- Witness for C2 at a concrete panicking handler. -/
theorem c2_recovery_witness :
    recoveryMiddleware panicHandler reqGet [] =
      (.ok { status := 500, body := "Internal Server Error", headers := [] },
       [] ++ ["[PANIC] " ++ "boom"]) :=
  (c2_recovery_middleware panicHandler reqGet []).1 "boom" [] rfl

/-- C3: every non-`OPTIONS` request (i.e. every request that reaches the
routing mux) is delivered to the mux under a context derived from the
caller's request context with a 30-second timeout attached: the delivered
context is cancelled exactly when the caller's context is cancelled or the
injected deadline `now + 30` has passed, and the chain consults the mux
only at that delivered request. -/
theorem c3_timeout_context (r : Request) (uuid : String) (now : Nat)
    (hm : r.method ≠ "OPTIONS") :
    (deliveredToMux r uuid now).ctx
      = Ctx.withTimeout (Ctx.withValue r.ctx "requestID" (requestIDOf r uuid)) (now + 30)
    ∧ (∀ t, (deliveredToMux r uuid now).ctx.cancelled t
        = (r.ctx.cancelled t || decide (now + 30 ≤ t)))
    ∧ ∀ (mux1 mux2 : Handler) (hdrs : List (String × String)),
        (∀ h, mux1 (deliveredToMux r uuid now) h = mux2 (deliveredToMux r uuid now) h) →
        middlewareChain mux1 uuid now r hdrs = middlewareChain mux2 uuid now r hdrs := by
  have hopt : (r.method == "OPTIONS") = false := by
    simp [hm]
  refine ⟨rfl, fun t => by simp [deliveredToMux, Ctx.cancelled], ?_⟩
  intro mux1 mux2 hdrs hsame
  rcases hmx : mux1 (deliveredToMux r uuid now)
      (("X-Request-ID", requestIDOf r uuid) :: (corsHeaders ++ hdrs)) with ⟨o, logs⟩
  have hmx2 : mux2 (deliveredToMux r uuid now)
      (("X-Request-ID", requestIDOf r uuid) :: (corsHeaders ++ hdrs)) = (o, logs) :=
    (hsame _).symm.trans hmx
  cases o with
  | ok resp =>
    rw [chain_ok mux1 uuid now r hdrs resp logs hopt hmx,
      chain_ok mux2 uuid now r hdrs resp logs hopt hmx2]
  | panicked m =>
    rw [chain_panic mux1 uuid now r hdrs m logs hopt hmx,
      chain_panic mux2 uuid now r hdrs m logs hopt hmx2]

/-- Witness for C3 at a concrete request. -/
theorem c3_timeout_witness :
    (deliveredToMux reqGet "uuid-7" 100).ctx
      = Ctx.withTimeout (Ctx.withValue reqGet.ctx "requestID" (requestIDOf reqGet "uuid-7")) (100 + 30)
    ∧ (∀ t, (deliveredToMux reqGet "uuid-7" 100).ctx.cancelled t
        = (reqGet.ctx.cancelled t || decide (100 + 30 ≤ t)))
    ∧ ∀ (mux1 mux2 : Handler) (hdrs : List (String × String)),
        (∀ h, mux1 (deliveredToMux reqGet "uuid-7" 100) h
            = mux2 (deliveredToMux reqGet "uuid-7" 100) h) →
        middlewareChain mux1 "uuid-7" 100 reqGet hdrs
          = middlewareChain mux2 "uuid-7" 100 reqGet hdrs :=
  c3_timeout_context reqGet "uuid-7" 100 (by decide)

/-- C8: for a request under `/compose/projects/` whose path (after the
prefix) splits into exactly one segment and whose method is not `GET`, the
compose route handler evaluates `parts[1]` out of range and panics, and
the recovery middleware turns that panic into a `500 Internal Server
Error` response. -/
theorem c8_one_segment_panic (interp : ComposeRoute → Handler) (r : Request)
    (hdrs : List (String × String))
    (hm : r.method ≠ "GET")
    (h1 : (goSplit '/' (goTrimLeading "/compose/projects/" r.urlPath)).length = 1) :
    composeRoute r.method r.urlPath = .panicked indexOutOfRange
    ∧ recoveryMiddleware (composeHttpHandler interp) r hdrs
        = (.ok { status := 500, body := "Internal Server Error", headers := hdrs },
           ["[PANIC] " ++ indexOutOfRange]) := by
  have hg : (r.method == "GET") = false := by simp [hm]
  have hnone : (goSplit '/' (goTrimLeading "/compose/projects/" r.urlPath))[1]? = none :=
    List.getElem?_eq_none (by omega)
  have hroute : composeRoute r.method r.urlPath = .panicked indexOutOfRange := by
    unfold composeRoute
    simp [hg, hnone]
  exact ⟨hroute, by simp [recoveryMiddleware, composeHttpHandler, hroute]⟩

/-- Witness for C8 on `POST /compose/projects/myproj`. -/
theorem c8_one_segment_witness :
    composeRoute reqPost.method reqPost.urlPath = .panicked indexOutOfRange
    ∧ recoveryMiddleware (composeHttpHandler fun _ => stubHandler) reqPost []
        = (.ok { status := 500, body := "Internal Server Error", headers := [] },
           ["[PANIC] " ++ indexOutOfRange]) :=
  c8_one_segment_panic (fun _ => stubHandler) reqPost [] (by decide) (by decide)

/-- C5 counterexample: an `OPTIONS` request is handled by the server (the
CORS middleware answers it with `200`) but the response carries no
`X-Request-ID` header and the request-id middleware never runs, refuting
the claim for every-request coverage. -/
theorem c5_request_id_cex :
    (middlewareChain stubHandler "uuid-1" 0 reqOptions []).1
      = .ok { status := 200, body := "", headers := corsHeaders }
    ∧ corsHeaders.all fun p => !(p.1 == "X-Request-ID") := by
  refine ⟨?_, by decide⟩
  have h := chain_options stubHandler "uuid-1" 0 reqOptions [] (by decide)
  rw [h]
  simp

/-- C5 amended: for every request except `OPTIONS` preflights (which the
CORS middleware short-circuits before the request-id middleware runs), the
request id is the incoming `X-Request-ID` value when non-empty and a fresh
UUID otherwise; it is stored in the delivered request context under the
request-id key, and appears as an `X-Request-ID` header of the response —
for any mux that (like every `net/http` handler) only adds to the writer's
header map. -/
theorem c5_request_id_amended (r : Request) (uuid : String) (now : Nat)
    (mux : Handler) (hdrs : List (String × String))
    (hm : r.method ≠ "OPTIONS")
    (hmux : ∀ req h, hdrsExtended h (mux req h).1) :
    (r.getHeader "X-Request-ID" = "" → requestIDOf r uuid = uuid)
    ∧ (r.getHeader "X-Request-ID" ≠ "" → requestIDOf r uuid = r.getHeader "X-Request-ID")
    ∧ (deliveredToMux r uuid now).ctx.value "requestID" = some (requestIDOf r uuid)
    ∧ ∃ resp, (middlewareChain mux uuid now r hdrs).1 = .ok resp
        ∧ ("X-Request-ID", requestIDOf r uuid) ∈ resp.headers := by
  have hopt : (r.method == "OPTIONS") = false := by simp [hm]
  refine ⟨?_, ?_, ?_, ?_⟩
  · intro h; simp [requestIDOf, h]
  · intro h; simp [requestIDOf, h]
  · simp [deliveredToMux, Ctx.value]
  · rcases hmx : mux (deliveredToMux r uuid now)
        (("X-Request-ID", requestIDOf r uuid) :: (corsHeaders ++ hdrs)) with ⟨o, logs⟩
    cases o with
    | ok resp =>
      refine ⟨resp, ?_, ?_⟩
      · rw [chain_ok mux uuid now r hdrs resp logs hopt hmx]
      · have hext := hmux (deliveredToMux r uuid now)
          (("X-Request-ID", requestIDOf r uuid) :: (corsHeaders ++ hdrs))
        rw [hmx] at hext
        obtain ⟨extra, hex⟩ := hext
        rw [hex]
        exact List.mem_append_right _ (List.mem_cons_self _ _)
    | panicked m =>
      refine ⟨Response.mk 500 "Internal Server Error"
          (("X-Request-ID", requestIDOf r uuid) :: (corsHeaders ++ hdrs)), ?_, ?_⟩
      · rw [chain_panic mux uuid now r hdrs m logs hopt hmx]
      · exact List.mem_cons_self _ _

/-- Witness for C5 (amended) at a concrete request and mux. -/
theorem c5_request_id_witness :
    (reqGet.getHeader "X-Request-ID" = "" → requestIDOf reqGet "uuid-2" = "uuid-2")
    ∧ (reqGet.getHeader "X-Request-ID" ≠ ""
        → requestIDOf reqGet "uuid-2" = reqGet.getHeader "X-Request-ID")
    ∧ (deliveredToMux reqGet "uuid-2" 5).ctx.value "requestID"
        = some (requestIDOf reqGet "uuid-2")
    ∧ ∃ resp, (middlewareChain stubHandler "uuid-2" 5 reqGet []).1 = .ok resp
        ∧ ("X-Request-ID", requestIDOf reqGet "uuid-2") ∈ resp.headers :=
  c5_request_id_amended reqGet "uuid-2" 5 stubHandler [] (by decide)
    (fun _ h => ⟨[], rfl⟩)

/-- C4 counterexample: with the engine unreachable, the `/health` endpoint
still reports status `healthy` with `200` — it never consults the engine —
refuting "no endpoint reports the process as healthy/ready while the engine
is unreachable". -/
theorem c4_health_cex :
    healthHandler { engineInfo := Except.error "Cannot connect to the Docker daemon" }
        "2026-10-11T00:00:00Z"
      = (200, { status := "healthy", timestamp := "2026-10-11T00:00:00Z" }) := rfl

/-- C4 amended: engine unreachability is surfaced at startup (the process
exits before serving when client construction or the initial ping fails)
and on every `/docker/info` call while unreachable; but the `/health`
endpoint does not consult the engine and reports `healthy` with `200`
unconditionally. -/
theorem c4_engine_surfacing_amended (e : String) (app : App) (now : String) :
    (∀ ping, mainStartsServing (Except.error e) ping = false)
    ∧ mainStartsServing (Except.ok ()) (Except.error e) = false
    ∧ mainStartsServing (Except.ok ()) (Except.ok ()) = true
    ∧ (app.engineInfo = Except.error e →
        dockerInfoHandler app = (500, "Failed to get Docker info: " ++ e))
    ∧ healthHandler app now = (200, { status := "healthy", timestamp := now }) := by
  refine ⟨fun ping => rfl, rfl, rfl, ?_, rfl⟩
  intro h
  simp [dockerInfoHandler, h]

/-- Witness for C4 (amended) at a concrete unreachable-engine app. -/
theorem c4_engine_surfacing_witness :
    (∀ ping, mainStartsServing (Except.error "no daemon") ping = false)
    ∧ mainStartsServing (Except.ok ()) (Except.error "no daemon") = false
    ∧ mainStartsServing (Except.ok ()) (Except.ok ()) = true
    ∧ (({ engineInfo := Except.error "no daemon" } : App).engineInfo
          = Except.error "no daemon" →
        dockerInfoHandler { engineInfo := Except.error "no daemon" }
          = (500, "Failed to get Docker info: " ++ "no daemon"))
    ∧ healthHandler { engineInfo := Except.error "no daemon" } "t0"
        = (200, { status := "healthy", timestamp := "t0" }) :=
  c4_engine_surfacing_amended "no daemon" { engineInfo := Except.error "no daemon" } "t0"

/-- Auxiliary invariant for C9: every error-store state reachable from a
state of at most 10 entries has at most 10 entries. -/
theorem errorStore_len_aux (ops : List ErrorOp) :
    ∀ init : List DockerError, init.length ≤ 10 →
      (List.foldl errorStoreStep init ops).length ≤ 10 := by
  induction ops with
  | nil => intro init h; simpa using h
  | cons op rest ih =>
    intro init h
    simp only [List.foldl_cons]
    apply ih
    cases op with
    | add e => exact List.length_take_le _ _
    | clear => simp [errorStoreStep, errorStoreClear]

/-- C9: after any sequence of `add`/`clear` operations from the empty
store, the error list holds at most 10 errors; `add` prepends the new error
(so the list is ordered newest first and the new error is the head) and
truncates to the first 10 entries, and `clear` empties the list. -/
theorem c9_error_store_invariant (ops : List ErrorOp) (e : DockerError) :
    (errorStoreRun ops).length ≤ 10
    ∧ errorStoreRun (ops ++ [ErrorOp.add e]) = (e :: errorStoreRun ops).take 10
    ∧ (errorStoreRun (ops ++ [ErrorOp.add e])).head? = some e
    ∧ errorStoreRun (ops ++ [ErrorOp.clear]) = [] := by
  have hadd : errorStoreRun (ops ++ [ErrorOp.add e]) = (e :: errorStoreRun ops).take 10 := by
    simp [errorStoreRun, List.foldl_append, errorStoreStep, errorStoreAdd]
  refine ⟨errorStore_len_aux ops [] (by simp), hadd, ?_, ?_⟩
  · rw [hadd, List.take_succ_cons, List.head?_cons]
  · simp [errorStoreRun, List.foldl_append, errorStoreStep, errorStoreClear]

/-- C10: when the fetch passed to `refresh` rejects, the store keeps its
`data` and `lastUpdated` and only resets `loading`, and exactly one
`FETCH_ERROR` entry is added (prepended) to the error store; when the fetch
resolves, the data is replaced, `lastUpdated` is set to the current time,
`loading` is reset, and no error is added. -/
theorem c10_refresh_error_handling {T : Type} (st : StoreState T)
    (errors : List DockerError) (msg : String) (d : T) (now : Nat) :
    ((storeRefresh st errors (Except.error msg) now).1.data = st.data
     ∧ (storeRefresh st errors (Except.error msg) now).1.lastUpdated = st.lastUpdated
     ∧ (storeRefresh st errors (Except.error msg) now).1.loading = false
     ∧ (storeRefresh st errors (Except.error msg) now).2
         = errorStoreAdd { message := msg, code := "FETCH_ERROR", timestamp := now } errors
     ∧ (storeRefresh st errors (Except.error msg) now).2.head?
         = some { message := msg, code := "FETCH_ERROR", timestamp := now })
    ∧ ((storeRefresh st errors (Except.ok d) now).1.data = d
       ∧ (storeRefresh st errors (Except.ok d) now).1.loading = false
       ∧ (storeRefresh st errors (Except.ok d) now).1.lastUpdated = some now
       ∧ (storeRefresh st errors (Except.ok d) now).2 = errors) := by
  refine ⟨⟨rfl, rfl, rfl, rfl, ?_⟩, rfl, rfl, rfl, rfl⟩
  simp [storeRefresh, errorStoreAdd, List.take_succ_cons]

/-- Auxiliary for C6: `Down` reduces to the identity with an empty affected
list whenever its three category filters come up empty. -/
theorem down_eq_of_filters (st : List Resource) (p : String) (k : Bool)
    (hi : (st.filter fun r => matchesProject p r && r.kind == ResKind.container) = [])
    (hn : (st.filter fun r => matchesProject p r && r.kind == ResKind.network) = [])
    (hv : k = false → (st.filter fun r => matchesProject p r && r.kind == ResKind.volume) = []) :
    Down st p k = (st, { affected := [], errors := [] }) := by
  unfold Down
  cases k with
  | true => simp [hi, hn, List.filter_true]
  | false => simp [hi, hn, hv rfl, List.filter_true]

/-- Auxiliary for C6: after a `Down`, every surviving resource either does
not carry the project label, or is a volume kept by `keepVolumes`. -/
theorem down_residual (st : List Resource) (p : String) (k : Bool) :
    ∀ r ∈ (Down st p k).1,
      matchesProject p r = false ∨ (k = true ∧ r.kind = ResKind.volume) := by
  intro r hr
  unfold Down at hr
  simp only [List.mem_filter] at hr
  obtain ⟨hrst, hnot⟩ := hr
  by_cases hm : matchesProject p r = true
  · cases hk : r.kind with
    | container =>
      exfalso
      have hmem : r ∈ st.filter fun x => matchesProject p x && x.kind == ResKind.container :=
        List.mem_filter.mpr ⟨hrst, by simp [hm, hk]⟩
      simp [List.mem_append, hmem] at hnot
    | network =>
      exfalso
      have hmem : r ∈ st.filter fun x => matchesProject p x && x.kind == ResKind.network :=
        List.mem_filter.mpr ⟨hrst, by simp [hm, hk]⟩
      simp [List.mem_append, hmem] at hnot
    | volume =>
      cases k with
      | true => exact Or.inr ⟨rfl, rfl⟩
      | false =>
        exfalso
        have hmem : r ∈ st.filter fun x => matchesProject p x && x.kind == ResKind.volume :=
          List.mem_filter.mpr ⟨hrst, by simp [hm, hk]⟩
        simp [List.mem_append, hmem] at hnot
  · exact Or.inl (Bool.eq_false_iff.mpr hm)

/-- C6: `Down` on a project with zero matching labeled resources returns
success with an empty affected-resource list and leaves the engine state
unchanged; running `Down` twice in succession leaves the same final state
as once, with a successful (empty-error) result both times. -/
theorem c6_down_idempotent (st : List Resource) (p : String) (k : Bool) :
    (st.filter (matchesProject p) = [] →
      Down st p k = (st, { affected := [], errors := [] }))
    ∧ Down (Down st p k).1 p k = ((Down st p k).1, { affected := [], errors := [] })
    ∧ (Down st p k).2.errors = [] := by
  refine ⟨?_, ?_, ?_⟩
  · intro hfil
    have h : ∀ r ∈ st, matchesProject p r = false := by
      intro r hr
      exact Bool.eq_false_iff.mpr (List.filter_eq_nil_iff.mp hfil r hr)
    exact down_eq_of_filters st p k
      (List.filter_eq_nil_iff.mpr fun r hr => by simp [h r hr])
      (List.filter_eq_nil_iff.mpr fun r hr => by simp [h r hr])
      (fun _ => List.filter_eq_nil_iff.mpr fun r hr => by simp [h r hr])
  · have hres := down_residual st p k
    refine down_eq_of_filters _ p k ?_ ?_ ?_
    · refine List.filter_eq_nil_iff.mpr fun r hr => ?_
      rcases hres r hr with h | ⟨_, hvol⟩
      · simp [h]
      · simp [hvol]
    · refine List.filter_eq_nil_iff.mpr fun r hr => ?_
      rcases hres r hr with h | ⟨_, hvol⟩
      · simp [h]
      · simp [hvol]
    · intro hk
      refine List.filter_eq_nil_iff.mpr fun r hr => ?_
      rcases hres r hr with h | ⟨hkt, _⟩
      · simp [h]
      · rw [hk] at hkt; exact absurd hkt (by simp)
  · unfold Down
    rfl

/-- Witness for C6 on a state with no `demo`-labeled resource. -/
theorem c6_down_witness :
    stAlien.filter (matchesProject "demo") = []
    ∧ Down stAlien "demo" false = (stAlien, { affected := [], errors := [] })
    ∧ Down (Down stAlien "demo" false).1 "demo" false
        = ((Down stAlien "demo" false).1, { affected := [], errors := [] }) :=
  ⟨by decide, (c6_down_idempotent stAlien "demo" false).1 (by decide),
    (c6_down_idempotent stAlien "demo" false).2.1⟩

/-- C7: scaling a service with `N` live instances down to
`desiredReplicas < N` removes exactly `N − desiredReplicas` instances — the
highest-indexed ones — so the survivors are exactly the `desiredReplicas`
lowest-indexed instances (every surviving index is ≤ every removed index,
and survivors plus removed form a permutation of the original indices). -/
theorem c7_scale_down (idxs : List Nat) (desired : Nat) (h : desired < idxs.length) :
    (Scale idxs desired).1.length = desired
    ∧ (Scale idxs desired).2.length = idxs.length - desired
    ∧ (∀ s ∈ (Scale idxs desired).1, ∀ x ∈ (Scale idxs desired).2, s ≤ x)
    ∧ ((Scale idxs desired).1 ++ (Scale idxs desired).2).Perm idxs := by
  have hnot : ¬ idxs.length < desired := by omega
  have hsc : Scale idxs desired =
      ((List.insertionSort (· ≤ ·) idxs).take desired,
       (List.insertionSort (· ≤ ·) idxs).drop desired) := by
    unfold Scale
    rw [if_neg hnot, if_pos h]
  have hperm : (List.insertionSort (· ≤ ·) idxs).Perm idxs := List.perm_insertionSort _ _
  have hlen : (List.insertionSort (· ≤ ·) idxs).length = idxs.length := hperm.length_eq
  have hsorted : List.Pairwise (· ≤ ·) (List.insertionSort (· ≤ ·) idxs) :=
    List.sorted_insertionSort _ _
  rw [hsc]
  dsimp only
  refine ⟨?_, ?_, ?_, ?_⟩
  · rw [List.length_take, hlen]
    omega
  · rw [List.length_drop, hlen]
  · intro s hs x hx
    have hp2 : List.Pairwise (· ≤ ·)
        ((List.insertionSort (· ≤ ·) idxs).take desired
          ++ (List.insertionSort (· ≤ ·) idxs).drop desired) := by
      rw [List.take_append_drop]
      exact hsorted
    exact (List.pairwise_append.mp hp2).2.2 s hs x hx
  · rw [List.take_append_drop]
    exact hperm

/-- Witness for C7 at the spec's example `{0,1,2,3}` scaled to 2. -/
theorem c7_scale_down_witness :
    2 < ([0, 1, 2, 3] : List Nat).length
    ∧ Scale [0, 1, 2, 3] 2 = ([0, 1], [2, 3])
    ∧ ((Scale [0, 1, 2, 3] 2).1.length = 2
       ∧ (Scale [0, 1, 2, 3] 2).2.length = ([0, 1, 2, 3] : List Nat).length - 2
       ∧ (∀ s ∈ (Scale [0, 1, 2, 3] 2).1, ∀ x ∈ (Scale [0, 1, 2, 3] 2).2, s ≤ x)
       ∧ ((Scale [0, 1, 2, 3] 2).1 ++ (Scale [0, 1, 2, 3] 2).2).Perm [0, 1, 2, 3]) :=
  ⟨by decide, by decide, c7_scale_down [0, 1, 2, 3] 2 (by decide)⟩

/-- C1 counterexample: two concrete requests where the claimed table is
wrong.  `POST /api/compose/projects/myproj` does not yield a 404 — the
dispatch code panics reading `parts[1]` (surfacing as the recovery
middleware's 500); and `POST` on the four-segment path `a/b/c/scale`,
whose fourth segment is `scale` but whose second is not `services`, yields
404 rather than invoking `ScaleService`. -/
theorem c1_compose_dispatch_cex :
    composeRoute "POST" "/compose/projects/myproj" = RouteOutcome.panicked indexOutOfRange
    ∧ composeRoute "POST" "/compose/projects/myproj" ≠ RouteOutcome.notFound
    ∧ composeRoute "POST" "/compose/projects/a/b/c/scale" = RouteOutcome.notFound
    ∧ composeRoute "POST" "/compose/projects/a/b/c/scale"
        ≠ RouteOutcome.routed ComposeRoute.scaleService := by
  refine ⟨by decide, by decide, by decide, by decide⟩

/-- C1 amended: the dispatch follows the claimed table with two changes —
`ScaleService` additionally requires the second segment to be `services`,
and a non-`GET` request whose path has exactly one (possibly empty)
segment does not get a 404: the handler panics reading `parts[1]` (the
recovery middleware then answers 500).  Formally, the translated dispatch
equals the claim-side table `composeRouteClaim` on every method and
path. -/
theorem c1_compose_dispatch_amended (method urlPath : String) :
    composeRoute method urlPath = composeRouteClaim method urlPath := by
  unfold composeRoute composeRouteClaim
  generalize goTrimLeading "/compose/projects/" urlPath = path
  by_cases hp : path = ""
  · subst hp
    by_cases hg : method = "GET"
    · subst hg
      decide
    · have hgf : (method == "GET") = false := beq_eq_false_iff_ne.mpr hg
      have hsplit : goSplit '/' "" = [""] := rfl
      simp [hsplit, hgf]
  · have hpf : (path == "") = false := beq_eq_false_iff_ne.mpr hp
    simp only [hpf, Bool.false_or]
    generalize goSplit '/' path = parts
    rcases parts with _ | ⟨a, _ | ⟨b, rest⟩⟩
    · cases hg : (method == "GET") <;> simp [hg]
    · cases hg : (method == "GET") <;> cases ha : (a == "") <;> simp [hg, ha]
    · have h1 : (a :: b :: rest)[1]? = some b := by simp
      have hlen : ((a :: b :: rest).length == 1) = false := by
        simp
      simp [h1, hlen]

end Kibutsu
